import Mathlib

/-!
Verification of the audit event pipeline of the mssql-mcp-core repository.

The development shallowly embeds the audit subsystem: the JSON value model
used for entry payloads (with a compact serializer mirroring
JSON.stringify), the AuditLogEntry record, the AuditLogger class
(construction from environment variables, redaction, per-environment sink
routing, dispatch, aggregate flush/close with de-duplication), and the
delivery-side state of the HttpSink, CloudWatchSink, AzureMonitorSink and
SyslogSink classes.  Effects (sink sends, file appends, network calls) are
made explicit as values so theorems can quantify over them; external
primitives that live outside the repository (the HMAC implementation of
node:crypto, wall-clock dates, the network) are passed in as parameters.
-/

namespace Audit

/-- JSON values, as produced by the audit pipeline.  Objects are ordered
association lists, matching JavaScript object key insertion order. -/
inductive Json where
  | null
  | bool (b : Bool)
  | num (n : Int)
  | str (s : String)
  | arr (xs : List Json)
  | obj (kvs : List (String × Json))

/-- Escape one character the way JSON.stringify does (quote, backslash and
the common control characters; other characters pass through). -/
def escCharL (c : Char) : List Char :=
  if c = '"' then ['\\', '"']
  else if c = '\\' then ['\\', '\\']
  else if c = '\n' then ['\\', 'n']
  else if c = '\r' then ['\\', 'r']
  else if c = '\t' then ['\\', 't']
  else [c]

/-- Escape a character list for inclusion in a JSON string literal. -/
def escList : List Char → List Char
  | [] => []
  | c :: cs => escCharL c ++ escList cs

/-- Quote and escape a string as a JSON string literal. -/
def qstr (s : String) : String :=
  "\"" ++ String.mk (escList s.data) ++ "\""

mutual

/-- Compact JSON serialization, mirroring JSON.stringify with no spacing. -/
def stringify : Json → String
  | .null => "null"
  | .bool true => "true"
  | .bool false => "false"
  | .num n => toString n
  | .str s => qstr s
  | .arr xs => "[" ++ stringifyList xs ++ "]"
  | .obj kvs => "\x7b" ++ stringifyObj kvs ++ "\x7d"

/-- Comma-separated serialization of array elements. -/
def stringifyList : List Json → String
  | [] => ""
  | [x] => stringify x
  | x :: y :: xs => stringify x ++ "," ++ stringifyList (y :: xs)

/-- Comma-separated serialization of object fields. -/
def stringifyObj : List (String × Json) → String
  | [] => ""
  | [(k, v)] => qstr k ++ ":" ++ stringify v
  | (k, v) :: y :: xs => qstr k ++ ":" ++ stringify v ++ "," ++ stringifyObj (y :: xs)

end

/-- JavaScript truthiness test on an optional JSON value: undefined, null,
false, 0 and the empty string are falsy. -/
def jsFalsy : Option Json → Bool
  | none => true
  | some .null => true
  | some (.bool b) => !b
  | some (.num n) => n == 0
  | some (.str s) => s == ""
  | some (.arr _) => false
  | some (.obj _) => false

/-- Result sub-record of an audit log entry (AuditLogger.ts interface
AuditLogEntry.result). -/
structure AuditResult where
  success : Bool
  recordCount : Option Int := none
  error : Option String := none
  data : Option Json := none

/-- The AuditLogEntry record of AuditLogger.ts.  Optional fields are
`none` when the corresponding property is absent/undefined. -/
structure AuditLogEntry where
  timestamp : String
  toolName : String
  environment : Option String := none
  arguments : Option (List (String × Json)) := none
  result : Option AuditResult := none
  durationMs : Option Int := none
  sessionId : Option String := none
  userId : Option String := none

/-- Helper for JSON serialization of records: a present optional property
contributes one field, an undefined one contributes nothing
(JSON.stringify drops undefined-valued keys). -/
def optField (k : String) (v : Option Json) : List (String × Json) :=
  match v with
  | none => []
  | some j => [(k, j)]

/-- JSON form of the result sub-record, fields in declaration order. -/
def resultToJson (r : AuditResult) : Json :=
  .obj ([("success", .bool r.success)]
    ++ optField "recordCount" (r.recordCount.map Json.num)
    ++ optField "error" (r.error.map Json.str)
    ++ optField "data" r.data)

/-- JSON form of an audit entry, fields in declaration order, undefined
fields dropped, as JSON.stringify produces for the dispatched object. -/
def entryToJson (e : AuditLogEntry) : Json :=
  .obj ([("timestamp", .str e.timestamp), ("toolName", .str e.toolName)]
    ++ optField "environment" (e.environment.map Json.str)
    ++ optField "arguments" (e.arguments.map Json.obj)
    ++ optField "result" (e.result.map resultToJson)
    ++ optField "durationMs" (e.durationMs.map Json.num)
    ++ optField "sessionId" (e.sessionId.map Json.str)
    ++ optField "userId" (e.userId.map Json.str))

/-- Does `needle` occur at the head of the second list? -/
def leadsWith : List Char → List Char → Bool
  | [], _ => true
  | _ :: _, [] => false
  | a :: as, b :: bs => a == b && leadsWith as bs

/-- Does `needle` occur as a contiguous run anywhere in `hay`?  This is
the String.prototype.includes test used by redactArguments. -/
def occursIn (needle : List Char) : List Char → Bool
  | [] => leadsWith needle []
  | c :: cs => leadsWith needle (c :: cs) || occursIn needle cs

/-- ASCII lower-casing, the effect of String.prototype.toLowerCase on the
identifier-like keys the code inspects. -/
def lowerStr (s : String) : String := String.mk (s.data.map Char.toLower)

/-- The sensitive-key substring list of AuditLogger.redactArguments. -/
def sensitiveKeys : List String :=
  ["password", "secret", "token", "key", "authorization", "auth", "credential"]

/-- A key is sensitive when its lower-cased form contains one of the
sensitive substrings (redactArguments' lowerKey.includes test). -/
def isSensitiveKey (k : String) : Bool :=
  sensitiveKeys.any fun s => occursIn s.data (lowerStr k).data

/-- Removal of the two non-serializable handle keys, performed by the
destructuring at the top of redactArguments on both branches. -/
def stripInternalKeys (args : List (String × Json)) : List (String × Json)
 :=
  args.filter fun kv => !(kv.1 == "pool" || kv.1 == "environmentPolicy")

/-- Per-entry value rewrite of redactArguments' loop: sensitive keys get
the literal "[REDACTED]", very long string values are truncated. -/
def redactValue (k : String) (v : Json) : Json :=
  if isSensitiveKey k then .str "[REDACTED]"
  else
    match v with
    | .str s => if s.length > 500 then .str (s.take 500 ++ "... [TRUNCATED]") else .str s
    | v => v

/-- AuditLogger.redactArguments: always strips pool/environmentPolicy;
masks sensitive values and truncates long strings only when
redactSensitiveData is set. -/
def redactArguments (redactSensitiveData : Bool) (args : List (String × Json)) :
    List (String × Json) :=
  if redactSensitiveData then
    (stripInternalKeys args).map fun kv => (kv.1, redactValue kv.1 kv.2)
  else
    stripInternalKeys args

/-- Model of a live audit sink instance.  `id` stands for the JavaScript
object identity; the capability flags record whether the optional flush
and close methods are present on the instance. -/
structure AuditSinkM where
  id : Nat
  hasFlush : Bool := true
  hasClose : Bool := true
deriving DecidableEq

/-- The three environment variables read by the AuditLogger constructor
(`none` models an unset variable). -/
structure AuditEnv where
  AUDIT_LOG_PATH : Option String := none
  AUDIT_LOGGING : Option String := none
  AUDIT_REDACT_SENSITIVE : Option String := none

/-- State of an AuditLogger instance.  The routing table `sinks` is an
ordered association list from environment name to sink list, with the
global list stored under the sentinel key "*". -/
structure AuditLogger where
  logFilePath : String
  enabled : Bool
  redactSensitiveData : Bool
  sinks : Option (List (String × List AuditSinkM)) := none
  sinksConfigured : Bool := false

/-- The AuditLogger constructor.  `enabled` is true unless AUDIT_LOGGING
is exactly "false"; redaction is on unless AUDIT_REDACT_SENSITIVE is
exactly "false"; the legacy file path is the AUDIT_LOG_PATH value when
set and non-empty, else `cwd`/logs/audit.jsonl, and empty when the logger
is disabled.  Filesystem path resolution and directory creation are
outside the embedding. -/
def AuditLogger.construct (env : AuditEnv) (cwd : String) : AuditLogger :=
  let enabled := env.AUDIT_LOGGING != some "false"
  let redact := env.AUDIT_REDACT_SENSITIVE != some "false"
  let logPath : Option String :=
    match env.AUDIT_LOG_PATH with
    | some p => if p = "" then none else some p
    | none => none
  match enabled, logPath with
  | true, some p =>
      { logFilePath := p, enabled := true, redactSensitiveData := redact }
  | true, none =>
      { logFilePath := cwd ++ "/logs/audit.jsonl", enabled := true,
        redactSensitiveData := redact }
  | false, _ =>
      { logFilePath := "", enabled := false, redactSensitiveData := redact }

/-- Insertion with JavaScript Map.set semantics on an association list:
replace the value in place when the key exists, append otherwise. -/
def mapSet (m : List (String × List AuditSinkM)) (k : String)
    (v : List AuditSinkM) : List (String × List AuditSinkM) :=
  if (m.lookup k).isSome then
    m.map fun kv => if kv.1 = k then (k, v) else kv
  else
    m ++ [(k, v)]

/-- AuditLogger.configureSinks: store the global list under "*", then set
each per-environment list, and mark sinks as configured. -/
def AuditLogger.configureSinks (lg : AuditLogger)
    (globalSinks : List AuditSinkM)
    (perEnvSinks : List (String × List AuditSinkM)) : AuditLogger :=
  { lg with
    sinks := some (perEnvSinks.foldl (fun m kv => mapSet m kv.1 kv.2)
      [("*", globalSinks)]),
    sinksConfigured := true }

/-- AuditLogger.getSinksForEnvironment: the entry's own environment list
when the environment is a truthy string with a configured list, otherwise
the global "*" list; `none` when sinks were never stored. -/
def getSinksForEnvironment (sinks : Option (List (String × List AuditSinkM)))
    (environment : Option String) : Option (List AuditSinkM) :=
  match sinks with
  | none => none
  | some m =>
    match environment with
    | some e => if e ≠ "" ∧ (m.lookup e).isSome then m.lookup e else m.lookup "*"
    | none => m.lookup "*"

/-- Observable effects of one AuditLogger.log call: a send of the shaped
entry to a sink instance, or the legacy append of one JSON line. -/
inductive Effect where
  | sendTo (sinkId : Nat) (entry : AuditLogEntry)
  | fileAppend (path : String) (line : String)

/-- The shaped entry AuditLogger.log dispatches: the input with its
arguments run through redactArguments. -/
def AuditLogger.shapeEntry (lg : AuditLogger) (entry : AuditLogEntry) :
    AuditLogEntry :=
  { entry with
    arguments := entry.arguments.map (redactArguments lg.redactSensitiveData) }

/-- AuditLogger.log: no effect when disabled; otherwise redact the
arguments, then either dispatch the shaped entry to every sink in the
routed list (when sinks are configured) or append one JSON line to the
legacy file.  Per-sink send failures are caught in the source and do not
alter which sinks are invoked, so the effect list is the send list. -/
def AuditLogger.log (lg : AuditLogger) (entry : AuditLogEntry) : List Effect :=
  if lg.enabled = false then []
  else if lg.sinksConfigured then
    match getSinksForEnvironment lg.sinks (lg.shapeEntry entry).environment with
    | some sinkList => sinkList.map fun s => .sendTo s.id (lg.shapeEntry entry)
    | none => []
  else if lg.logFilePath = "" then []
  else
    [.fileAppend lg.logFilePath
      (stringify (entryToJson (lg.shapeEntry entry)) ++ "\n")]

/-- AuditLogger.truncateResultData: falsy data becomes undefined; arrays
longer than 10 collapse to a marker object keeping the first 10 items;
other values whose serialization exceeds 10000 characters collapse to a
marker object keeping a 1000-character preview. -/
def truncateResultData (data : Option Json) : Option Json :=
  if jsFalsy data then none
  else
    match data with
    | none => none
    | some (.arr xs) =>
      if xs.length > 10 then
        some (.obj [("_truncated", .bool true),
                    ("_totalCount", .num (Int.ofNat xs.length)),
                    ("items", .arr (xs.take 10))])
      else some (.arr xs)
    | some d =>
      let s := stringify d
      if s.length > 10000 then
        some (.obj [("_truncated", .bool true),
                    ("_originalSize", .num (Int.ofNat s.length)),
                    ("preview", .str (s.take 1000 ++ "..."))])
      else some d

/-- The per-call audit level of AuditLogger.ts. -/
inductive AuditLevel where
  | none
  | basic
  | verbose
deriving DecidableEq

/-- Shape of the duck-typed `result` argument of logToolInvocation; the
code reads success, recordCount, rowsAffected, error and data off it,
each possibly absent. -/
structure ToolResult where
  success : Option Bool := Option.none
  recordCount : Option Int := Option.none
  rowsAffected : Option Int := Option.none
  error : Option String := Option.none
  data : Option Json := Option.none

/-- The options argument of logToolInvocation. -/
structure LogOptions where
  sessionId : Option String := Option.none
  userId : Option String := Option.none
  environment : Option String := Option.none
  auditLevel : Option AuditLevel := Option.none

/-- The entry that logToolInvocation hands to AuditLogger.log, or `none`
at level "none".  `now` is the wall-clock ISO timestamp and `durationMs`
the already-rounded duration. -/
def buildInvocationEntry (toolName : String)
    (args : Option (List (String × Json))) (result : Option ToolResult)
    (durationMs : Int) (options : LogOptions) (now : String) :
    Option AuditLogEntry :=
  let lvl := options.auditLevel.getD .basic
  match lvl with
  | .none => Option.none
  | .basic => some {
      timestamp := now
      toolName
      environment := options.environment
      result := some {
        success := (result.bind (·.success)).getD false
        recordCount := (result.bind (·.recordCount)).orElse
          fun _ => result.bind (·.rowsAffected)
        error := result.bind (·.error) }
      durationMs := some durationMs
      sessionId := options.sessionId
      userId := options.userId }
  | .verbose => some {
      timestamp := now
      toolName
      environment := options.environment
      arguments := some (args.getD [])
      result := some {
        success := (result.bind (·.success)).getD false
        recordCount := (result.bind (·.recordCount)).orElse
          fun _ => result.bind (·.rowsAffected)
        error := result.bind (·.error)
        data := truncateResultData (result.bind (·.data)) }
      durationMs := some durationMs
      sessionId := options.sessionId
      userId := options.userId }

/-- AuditLogger.logToolInvocation as effects: build the level-shaped
entry and dispatch it through log. -/
def AuditLogger.logToolInvocation (lg : AuditLogger) (toolName : String)
    (args : Option (List (String × Json))) (result : Option ToolResult)
    (durationMs : Int) (options : LogOptions) (now : String) : List Effect :=
  match buildInvocationEntry toolName args result durationMs options now with
  | Option.none => []
  | some e => lg.log e

/-- The visited-set iteration shared by AuditLogger.flush and close: walk
the concatenated sink lists, invoking each not-yet-seen sink that has the
capability, and adding exactly those to the visited set. -/
def collectDistinct (cap : AuditSinkM → Bool) :
    List AuditSinkM → List AuditSinkM → List AuditSinkM
  | [], _ => []
  | s :: rest, seen =>
    if s ∉ seen ∧ cap s then s :: collectDistinct cap rest (s :: seen)
    else collectDistinct cap rest seen

/-- All sinks of the routing table in iteration order (Map.values, then
each list in order). -/
def AuditLogger.allSinks (lg : AuditLogger) : List AuditSinkM :=
  match lg.sinks with
  | none => []
  | some m => (m.map (·.2)).flatten

/-- The sinks whose flush method AuditLogger.flush invokes, in order. -/
def AuditLogger.flushCalls (lg : AuditLogger) : List AuditSinkM :=
  collectDistinct (·.hasFlush) lg.allSinks []

/-- The sinks whose close method AuditLogger.close invokes, in order. -/
def AuditLogger.closeCalls (lg : AuditLogger) : List AuditSinkM :=
  collectDistinct (·.hasClose) lg.allSinks []

/-- One AuditLogger.flush call under a failure oracle: every collected
sink is invoked, and the boolean records whether its flush rejected (each
rejection is caught and logged, never aborting the others). -/
def AuditLogger.flushEffects (lg : AuditLogger) (fails : Nat → Bool) :
    List (AuditSinkM × Bool) :=
  lg.flushCalls.map fun s => (s, fails s.id)

/-- One AuditLogger.close call under a failure oracle, as for flush. -/
def AuditLogger.closeEffects (lg : AuditLogger) (fails : Nat → Bool) :
    List (AuditSinkM × Bool) :=
  lg.closeCalls.map fun s => (s, fails s.id)

/-- The sink ids that receive a send in an effect list. -/
def sentSinkIds (effs : List Effect) : List Nat :=
  effs.filterMap fun eff =>
    match eff with
    | .sendTo sid _ => some sid
    | .fileAppend _ _ => none

/-! HttpSink: batching HTTP delivery with one bounded retry. -/

/-- Outcome of one HttpSink.flush call: the bodies of the POST attempts
in order, whether the batch was dropped after the retry (with a
diagnostic), and the buffer left behind for the next flush. -/
structure HttpFlushOutcome where
  posts : List (List AuditLogEntry)
  dropped : Bool
  diag : Bool
  buffer : List AuditLogEntry

/-- The wire body of one HttpSink POST: the batch as a JSON array. -/
def httpPostBody (batch : List AuditLogEntry) : String :=
  stringify (.arr (batch.map entryToJson))

/-- HttpSink.flush.  `buffer` is the sink buffer at entry, `arrivals` the
entries pushed by send while the network calls are awaited (they land in
the detached-from buffer), and `fail1`/`fail2` tell whether the first
attempt and the retry fail (non-2xx response or thrown transport error).
An empty buffer returns immediately; otherwise the buffer contents are
detached as one batch, posted, retried once on failure, and dropped with
a diagnostic if the retry also fails. -/
def httpFlush (buffer arrivals : List AuditLogEntry) (fail1 fail2 : Bool) :
    HttpFlushOutcome :=
  if buffer.isEmpty then
    { posts := [], dropped := false, diag := false, buffer := buffer ++ arrivals }
  else
    let batch := buffer
    if fail1 = false then
      { posts := [batch], dropped := false, diag := false, buffer := arrivals }
    else if fail2 = false then
      { posts := [batch, batch], dropped := false, diag := false, buffer := arrivals }
    else
      { posts := [batch, batch], dropped := true, diag := true, buffer := arrivals }

/-- HttpSink.send: append to the buffer unless closed; the boolean tells
whether the buffer has reached batchSize and a flush is triggered. -/
def httpSend (closed : Bool) (buffer : List AuditLogEntry) (batchSize : Nat)
    (e : AuditLogEntry) : List AuditLogEntry × Bool :=
  if closed then (buffer, false)
  else (buffer ++ [e], decide (buffer.length + 1 ≥ batchSize))

/-! CloudWatchSink: put-log-events with sequence-token recovery. -/

/-- One log event of the put-log-events payload. -/
structure LogEvent where
  timestamp : Int
  message : String

/-- The log events CloudWatchSink.putLogEvents builds from a batch;
`parseTime` is the external Date-parse from the ISO timestamp to epoch
milliseconds. -/
def cwBuildEvents (parseTime : String → Int) (batch : List AuditLogEntry) :
    List LogEvent :=
  batch.map fun e => { timestamp := parseTime e.timestamp,
                       message := stringify (entryToJson e) }

/-- Response of one put-log-events network call: success carrying the
next sequence token, a token conflict (InvalidSequenceTokenException or
DataAlreadyAcceptedException) carrying the server's expected token, or
any other failure. -/
inductive PutResult where
  | ok (nextToken : Option String)
  | tokenErr (expected : Option String)
  | otherErr

/-- Outcome of one CloudWatchSink.putLogEvents call: the attempts made
(token carried and events sent, in order), the stored sequence token
afterwards, whether the batch was delivered, whether the retry-failure
diagnostic was written, and whether the call re-threw to flush. -/
structure PutOutcome where
  attempts : List (Option String × List LogEvent)
  token : Option String
  delivered : Bool
  diag : Bool
  threw : Bool

/-- CloudWatchSink.putLogEvents.  `token` is the stored sequence token,
`events` the batch payload, and `net n` the response of the (n+1)-th
network call.  A token conflict adopts the server's expected token and
retries the same events exactly once; a retry failure is logged and the
batch dropped; any other first-attempt failure re-throws to flush. -/
def putLogEvents (token : Option String) (events : List LogEvent)
    (net : Nat → PutResult) : PutOutcome :=
  match net 0 with
  | .ok next =>
    { attempts := [(token, events)], token := next, delivered := true,
      diag := false, threw := false }
  | .tokenErr expected =>
    match net 1 with
    | .ok next =>
      { attempts := [(token, events), (expected, events)], token := next,
        delivered := true, diag := false, threw := false }
    | _ =>
      { attempts := [(token, events), (expected, events)], token := expected,
        delivered := false, diag := true, threw := false }
  | .otherErr =>
    { attempts := [(token, events)], token := token, delivered := false,
      diag := false, threw := true }

/-! AzureMonitorSink: HMAC-signed batched delivery. -/

/-- The base64 alphabet. -/
def b64Alphabet : List Char :=
  "ABCDEFGHIJKLMNOPQRSTUVWXYZabcdefghijklmnopqrstuvwxyz0123456789+/".data

/-- Base64 digit for a 6-bit value. -/
def b64Char (n : Nat) : Char := b64Alphabet.getD n 'A'

/-- Base64 encoding of a byte list, with padding, as Buffer#toString
with encoding base64 produces. -/
def b64encode : List Nat → String
  | [] => ""
  | [a] =>
    String.mk [b64Char (a / 4), b64Char (a % 4 * 16), '=', '=']
  | [a, b] =>
    String.mk [b64Char (a / 4), b64Char (a % 4 * 16 + b / 16),
               b64Char (b % 16 * 4), '=']
  | a :: b :: c :: rest =>
    String.mk [b64Char (a / 4), b64Char (a % 4 * 16 + b / 16),
               b64Char (b % 16 * 4 + c / 64), b64Char (c % 64)]
      ++ b64encode rest

/-- Value of a base64 digit, `none` for padding and foreign characters. -/
def b64Value (c : Char) : Option Nat :=
  b64Alphabet.indexOf? c

/-- Regroup 6-bit values into bytes, dropping a trailing fragment, as the
lenient Node base64 decoder does. -/
def b64Regroup : List Nat → List Nat
  | a :: b :: c :: d :: rest =>
    (a * 4 + b / 16) :: (b % 16 * 16 + c / 4) :: (c % 4 * 64 + d) :: b64Regroup rest
  | [a, b, c] => [a * 4 + b / 16, b % 16 * 16 + c / 4]
  | [a, b] => [a * 4 + b / 16]
  | [_] => []
  | [] => []

/-- Base64 decoding of a string to bytes, as Buffer.from with encoding
base64: ignore non-alphabet characters, regroup the 6-bit values. -/
def b64decode (s : String) : List Nat :=
  b64Regroup (s.data.filterMap b64Value)

/-- An outbound HTTP request as the Azure sink assembles it. -/
structure HttpRequest where
  url : String
  method : String
  headers : List (String × String)
  body : String

/-- AzureMonitorSink.buildSignature's string-to-sign: the five canonical
lines joined by newlines. -/
def azureStringToSign (contentLength : Nat) (date : String) : String :=
  String.intercalate "\n"
    ["POST", toString contentLength, "application/json",
     "x-ms-date:" ++ date, "/api/logs"]

/-- AzureMonitorSink.buildSignature: base64 of the HMAC-SHA256 of the
string-to-sign, keyed by the base64-decoded shared key.  `hmacSha256`
stands for the node:crypto primitive (bytes key, utf-8 message, digest
bytes). -/
def buildSignature (hmacSha256 : List Nat → String → List Nat)
    (sharedKey : String) (contentLength : Nat) (date : String) : String :=
  b64encode (hmacSha256 (b64decode sharedKey)
    (azureStringToSign contentLength date))

/-- AzureMonitorSink.flush on a detached batch: `none` when the batch is
empty (nothing sent), otherwise the signed POST request, with `now` the
RFC1123 date the code obtains from the clock. -/
def azureFlushRequest (hmacSha256 : List Nat → String → List Nat)
    (workspaceId sharedKey logType : String) (batch : List AuditLogEntry)
    (now : String) : Option HttpRequest :=
  if batch.isEmpty then none
  else
    let body := stringify (.arr (batch.map entryToJson))
    let contentLength := body.utf8ByteSize
    let signature := buildSignature hmacSha256 sharedKey contentLength now
    some {
      url := "https://" ++ workspaceId
        ++ ".ods.opinsights.azure.com/api/logs?api-version=2016-04-01"
      method := "POST"
      headers := [
        ("Content-Type", "application/json"),
        ("Log-Type", logType),
        ("x-ms-date", now),
        ("Authorization", "SharedKey " ++ workspaceId ++ ":" ++ signature)]
      body := body }

/-! SyslogSink: RFC 5424 message formatting. -/

/-- Syslog severity of an entry: 4 (warning) when result.success is
explicitly false, else 6 (informational). -/
def syslogSeverity (entry : AuditLogEntry) : Nat :=
  match entry.result with
  | some r => if r.success = false then 4 else 6
  | none => 6

/-- SyslogSink.send's message: PRI from facility and severity, version 1,
timestamp (the entry's, or the clock when absent), hostname, app name,
process id, the tool name as msgId (or "-"), and the JSON payload. -/
def formatSyslogMessage (facility : Nat) (hostname appName procId : String)
    (now : String) (entry : AuditLogEntry) : String :=
  let pri := facility * 8 + syslogSeverity entry
  let timestamp := if entry.timestamp = "" then now else entry.timestamp
  let msgId := if entry.toolName = "" then "-" else entry.toolName
  "<" ++ toString pri ++ ">1 "
    ++ (timestamp ++ " " ++ hostname ++ " " ++ appName ++ " " ++ procId
        ++ " " ++ msgId ++ " - " ++ stringify (entryToJson entry))

/-! Concrete fixtures used to instantiate the theorems. -/

/-- A sink instance with both optional capabilities. -/
def sinkW1 : AuditSinkM := { id := 1 }

/-- A second, distinct sink instance. -/
def sinkW2 : AuditSinkM := { id := 2 }

/-- A logger built from an empty environment (so enabled, redacting) with
sinkW1 as the only global sink. -/
def lgW : AuditLogger :=
  (AuditLogger.construct {} "/app").configureSinks [sinkW1] []

/-- An entry whose arguments hold a sensitive key, an internal handle key
and a benign key. -/
def entryW1 : AuditLogEntry :=
  { timestamp := "t", toolName := "tool",
    arguments := some [("password", .str "x"), ("pool", .null),
                       ("name", .str "bob")] }

/-- The shaped form of entryW1 as lgW dispatches it. -/
def entryW1shaped : AuditLogEntry := lgW.shapeEntry entryW1

/-- A minimal entry with no optional fields. -/
def entryPlain : AuditLogEntry := { timestamp := "t", toolName := "tool" }

/-- A logger routing table with global sink G and per-environment sink P
under "production", as in the spec's routing scenario. -/
def routedLogger (G P : AuditSinkM) (cwd : String) : AuditLogger :=
  (AuditLogger.construct {} cwd).configureSinks [G] [("production", [P])]

/-- A sink instance lacking both optional capabilities. -/
def sinkW3 : AuditSinkM := { id := 3, hasFlush := false, hasClose := false }

/-- A routing table in which sinkW1 appears both globally and in the
"production" list, alongside a capability-less sink. -/
def lgW4 : AuditLogger :=
  (AuditLogger.construct {} "/app").configureSinks [sinkW1, sinkW3]
    [("production", [sinkW1, sinkW2])]

/-- An entry whose result reports success. -/
def entrySucc : AuditLogEntry :=
  { timestamp := "t", toolName := "tool", result := some { success := true } }

/-- An entry whose result reports failure. -/
def entryFail : AuditLogEntry :=
  { timestamp := "t", toolName := "tool", result := some { success := false } }

/-- An arbitrary stand-in for the external HMAC-SHA256 primitive, used
only to instantiate the Azure signature theorem. -/
def hmacW : List Nat → String → List Nat := fun _ _ => [104, 109, 97]

/-- An 11-element array, longer than the truncation limit. -/
def bigArrW : Json := .arr (List.replicate 11 (.num 1))

/-- A 6000-character string. -/
def longStrW : String := String.mk (List.replicate 6000 'a')

/-- A 2-element array whose serialization exceeds 10000 characters. -/
def longArrW : Json := .arr [.str longStrW, .str longStrW]

/-- A non-array JSON value whose serialization exceeds 10000 characters.
-/
def strBigW : Json := .str (String.mk (List.replicate 10500 'a'))

/-- A network oracle for the CloudWatch witness: the first put call hits
a token conflict naming "T2", the retry succeeds returning "T3". -/
def netW : Nat → PutResult :=
  fun n => if n = 0 then .tokenErr (some "T2") else .ok (some "T3")

/-! Helper lemmas. -/

/-- Any binding surviving redactArguments avoids the stripped keys, and,
when sensitive-value redaction is on, a sensitive key carries the
placeholder. -/
theorem redactArguments_mem (flag : Bool) (args : List (String × Json))
    (kv : String × Json) (h : kv ∈ redactArguments flag args) :
    kv.1 ≠ "pool" ∧ kv.1 ≠ "environmentPolicy" ∧
      (flag = true → isSensitiveKey kv.1 = true → kv.2 = .str "[REDACTED]") := by
  have strip_mem : ∀ kv' : String × Json, kv' ∈ stripInternalKeys args →
      kv'.1 ≠ "pool" ∧ kv'.1 ≠ "environmentPolicy" := by
    intro kv' h'
    have := List.of_mem_filter h'
    constructor
    · intro hp
      simp [hp] at this
    · intro hp
      simp [hp] at this
  cases flag with
  | false =>
    rw [redactArguments] at h
    simp only [Bool.false_eq_true, if_false] at h
    exact ⟨(strip_mem kv h).1, (strip_mem kv h).2, by intro h'; cases h'⟩
  | true =>
    rw [redactArguments] at h
    simp only [if_true] at h
    rcases List.mem_map.mp h with ⟨kv0, hkv0, heq⟩
    have hfst : kv.1 = kv0.1 := by rw [← heq]
    rcases strip_mem kv0 hkv0 with ⟨h1, h2⟩
    refine ⟨by rw [hfst]; exact h1, by rw [hfst]; exact h2, ?_⟩
    intro _ hsens
    have h2' : kv.2 = redactValue kv0.1 kv0.2 := by rw [← heq]
    rw [hfst] at hsens
    rw [h2']
    simp [redactValue, hsens]

/-- Every sink send produced by AuditLogger.log carries the entry with
its arguments run through redactArguments. -/
theorem log_sendTo_arguments (lg : AuditLogger) (entry : AuditLogEntry)
    (sid : Nat) (e' : AuditLogEntry)
    (h : Effect.sendTo sid e' ∈ lg.log entry) :
    e'.arguments = entry.arguments.map (redactArguments lg.redactSensitiveData) := by
  rw [AuditLogger.log] at h
  split at h
  · simp at h
  · split at h
    · split at h
      · rcases List.mem_map.mp h with ⟨s, _, heq⟩
        have := (Effect.sendTo.injEq _ _ _ _).mp heq.symm
        rw [this.2]
        rfl
      · simp at h
    · split at h
      · simp at h
      · rw [List.mem_singleton] at h
        cases h

/-- C1: in every arguments map attached to a dispatched entry, a key
whose lower-cased form contains one of the sensitive substrings carries
the literal "[REDACTED]" (under the sensitive-value redaction setting,
which is on by default), and the keys pool and environmentPolicy are
absent whether or not sensitive-value redaction is enabled. -/
theorem claim1_redacted_dispatch (lg : AuditLogger) (entry : AuditLogEntry)
    (sid : Nat) (e' : AuditLogEntry)
    (h : Effect.sendTo sid e' ∈ lg.log entry)
    (args : List (String × Json)) (hargs : e'.arguments = some args)
    (kv : String × Json) (hkv : kv ∈ args) :
    (lg.redactSensitiveData = true → isSensitiveKey kv.1 = true →
      kv.2 = .str "[REDACTED]")
    ∧ kv.1 ≠ "pool" ∧ kv.1 ≠ "environmentPolicy" := by
  have harg := log_sendTo_arguments lg entry sid e' h
  rw [hargs] at harg
  cases hENT : entry.arguments with
  | none => rw [hENT] at harg; cases harg
  | some args0 =>
    rw [hENT] at harg
    simp only [Option.map_some'] at harg
    have hae : args = redactArguments lg.redactSensitiveData args0 :=
      Option.some.inj harg
    rcases redactArguments_mem lg.redactSensitiveData args0 kv (hae ▸ hkv)
      with ⟨h1, h2, h3⟩
    exact ⟨fun hf => h3 hf, h1, h2⟩

/-- Witness for C1 at a concrete logger, entry and sensitive key. -/
theorem claim1_witness :
    (lgW.redactSensitiveData = true → isSensitiveKey "password" = true →
      Json.str "[REDACTED]" = Json.str "[REDACTED]")
    ∧ "password" ≠ "pool" ∧ "password" ≠ "environmentPolicy" :=
  claim1_redacted_dispatch lgW entryW1 1 entryW1shaped
    (by
      rw [show lgW.log entryW1 = [Effect.sendTo 1 entryW1shaped] from rfl]
      exact List.mem_singleton.mpr rfl)
    [("password", Json.str "[REDACTED]"), ("name", Json.str "bob")]
    rfl
    ("password", Json.str "[REDACTED]")
    (List.mem_cons_self _ _)

/-- C2: at audit level basic, or with the level omitted (basic is the
default), the entry handed to AuditLogger.log exists, has no arguments
field, and its result has no data field, for every combination of the
inputs; dispatching it is exactly logToolInvocation's behavior. -/
theorem claim2_basic_level (toolName : String)
    (args : Option (List (String × Json))) (result : Option ToolResult)
    (durationMs : Int) (options : LogOptions) (now : String)
    (h : options.auditLevel.getD .basic = .basic) :
    ∃ e, buildInvocationEntry toolName args result durationMs options now = some e
      ∧ e.arguments = none
      ∧ (∃ r, e.result = some r ∧ r.data = none)
      ∧ ∀ lg : AuditLogger,
          lg.logToolInvocation toolName args result durationMs options now
            = lg.log e := by
  simp only [buildInvocationEntry, h]
  refine ⟨_, rfl, rfl, ⟨_, rfl, rfl⟩, ?_⟩
  intro lg
  rw [AuditLogger.logToolInvocation]
  simp only [buildInvocationEntry, h]

/-- Witness for C2 with the audit level omitted. -/
theorem claim2_witness :
    ({} : LogOptions).auditLevel.getD .basic = .basic
    ∧ ∃ e, buildInvocationEntry "tool" Option.none Option.none 5 {} "t" = some e
      ∧ e.arguments = none
      ∧ (∃ r, e.result = some r ∧ r.data = none)
      ∧ ∀ lg : AuditLogger,
          lg.logToolInvocation "tool" Option.none Option.none 5 {} "t"
            = lg.log e :=
  ⟨rfl, claim2_basic_level "tool" Option.none Option.none 5 {} "t" rfl⟩

/-- Projection fact: shaping an entry for dispatch leaves its environment
unchanged. -/
theorem shapeEntry_environment (lg : AuditLogger) (entry : AuditLogEntry) :
    (lg.shapeEntry entry).environment = entry.environment := rfl

/-- C3: with global sink G under "*" and per-environment sink P under
"production", an entry with environment "production" is delivered to P
and not to G, while entries with environment "staging" or no environment
go to G and not to P; in general an environment with no list of its own
falls back to the "*" list, and when no non-empty list applies the entry
is dropped without effect. -/
theorem claim3_routing (G P : AuditSinkM) (hGP : G.id ≠ P.id)
    (entry : AuditLogEntry) (cwd : String) :
    (sentSinkIds ((routedLogger G P cwd).log
        { entry with environment := some "production" }) = [P.id]
      ∧ G.id ∉ sentSinkIds ((routedLogger G P cwd).log
        { entry with environment := some "production" }))
    ∧ (sentSinkIds ((routedLogger G P cwd).log
        { entry with environment := some "staging" }) = [G.id]
      ∧ P.id ∉ sentSinkIds ((routedLogger G P cwd).log
        { entry with environment := some "staging" }))
    ∧ (sentSinkIds ((routedLogger G P cwd).log
        { entry with environment := none }) = [G.id]
      ∧ P.id ∉ sentSinkIds ((routedLogger G P cwd).log
        { entry with environment := none }))
    ∧ (∀ (m : List (String × List AuditSinkM)) (e : String),
        m.lookup e = none →
        getSinksForEnvironment (some m) (some e) = m.lookup "*")
    ∧ (∀ (lg' : AuditLogger) (entry' : AuditLogEntry),
        lg'.sinksConfigured = true →
        (∀ l, getSinksForEnvironment lg'.sinks entry'.environment = some l →
          l = []) →
        lg'.log entry' = []) := by
  refine ⟨⟨rfl, ?_⟩, ⟨rfl, ?_⟩, ⟨rfl, ?_⟩, ?_, ?_⟩
  · rw [show sentSinkIds ((routedLogger G P cwd).log
        { entry with environment := some "production" }) = [P.id] from rfl]
    simp [hGP]
  · rw [show sentSinkIds ((routedLogger G P cwd).log
        { entry with environment := some "staging" }) = [G.id] from rfl]
    simp [Ne.symm hGP]
  · rw [show sentSinkIds ((routedLogger G P cwd).log
        { entry with environment := none }) = [G.id] from rfl]
    simp [Ne.symm hGP]
  · intro m e hlook
    rw [getSinksForEnvironment]
    simp [hlook]
  · intro lg' entry' hcfg hempty
    rw [AuditLogger.log]
    split
    · rfl
    · rw [shapeEntry_environment]
      cases hg : getSinksForEnvironment lg'.sinks entry'.environment with
      | none => rfl
      | some l =>
        rw [hempty l hg]
        rfl

/-- Witness for C3 at concrete distinct sinks and a concrete entry. -/
theorem claim3_witness :
    (sentSinkIds ((routedLogger sinkW1 sinkW2 "/app").log
        { entryPlain with environment := some "production" }) = [sinkW2.id]
      ∧ sinkW1.id ∉ sentSinkIds ((routedLogger sinkW1 sinkW2 "/app").log
        { entryPlain with environment := some "production" }))
    ∧ (sentSinkIds ((routedLogger sinkW1 sinkW2 "/app").log
        { entryPlain with environment := some "staging" }) = [sinkW1.id]
      ∧ sinkW2.id ∉ sentSinkIds ((routedLogger sinkW1 sinkW2 "/app").log
        { entryPlain with environment := some "staging" }))
    ∧ (sentSinkIds ((routedLogger sinkW1 sinkW2 "/app").log
        { entryPlain with environment := none }) = [sinkW1.id]
      ∧ sinkW2.id ∉ sentSinkIds ((routedLogger sinkW1 sinkW2 "/app").log
        { entryPlain with environment := none }))
    ∧ (∀ (m : List (String × List AuditSinkM)) (e : String),
        m.lookup e = none →
        getSinksForEnvironment (some m) (some e) = m.lookup "*")
    ∧ (∀ (lg' : AuditLogger) (entry' : AuditLogEntry),
        lg'.sinksConfigured = true →
        (∀ l, getSinksForEnvironment lg'.sinks entry'.environment = some l →
          l = []) →
        lg'.log entry' = []) :=
  claim3_routing sinkW1 sinkW2 (by decide) entryPlain "/app"

/-- Occurrence count of a sink in the visited-set iteration: one when the
sink has the capability, is not already visited and occurs in the input,
zero otherwise. -/
theorem count_collectDistinct (cap : AuditSinkM → Bool) (s : AuditSinkM) :
    ∀ l seen : List AuditSinkM,
      (collectDistinct cap l seen).count s =
        if cap s = true ∧ s ∉ seen ∧ s ∈ l then 1 else 0 := by
  intro l
  induction l with
  | nil =>
    intro seen
    simp [collectDistinct]
  | cons x rest ih =>
    intro seen
    rw [collectDistinct]
    by_cases hx : x ∉ seen ∧ cap x = true
    · rw [if_pos hx, List.count_cons, ih (x :: seen)]
      by_cases hsx : s = x
      · subst hsx
        simp [hx.1, hx.2]
      · simp [List.mem_cons, hsx, Ne.symm hsx]
    · rw [if_neg hx, ih seen]
      by_cases hsx : s = x
      · subst hsx
        by_cases hcap : cap s = true
        · have hseen : s ∈ seen := by
            by_contra hns
            exact hx ⟨hns, hcap⟩
          simp [hseen]
        · simp [hcap]
      · simp [List.mem_cons, hsx]

/-- The sinks invoked by flush under any failure oracle are exactly the
de-duplicated flush-capable sinks (failures never change the call list).
-/
theorem flushEffects_fst (lg : AuditLogger) (fails : Nat → Bool) :
    (lg.flushEffects fails).map Prod.fst = lg.flushCalls := by
  rw [AuditLogger.flushEffects, List.map_map]
  exact List.map_id lg.flushCalls

/-- The analogue of flushEffects_fst for close. -/
theorem closeEffects_fst (lg : AuditLogger) (fails : Nat → Bool) :
    (lg.closeEffects fails).map Prod.fst = lg.closeCalls := by
  rw [AuditLogger.closeEffects, List.map_map]
  exact List.map_id lg.closeCalls

/-- C4: any sink instance appearing anywhere in the routing table (in the
global list, a per-environment list, or several) has its flush invoked
exactly once per AuditLogger.flush call and its close invoked exactly
once per AuditLogger.close call when it has the capability, and zero
times when it lacks it — under every failure oracle, so one sink's
failure never suppresses the calls on the others. -/
theorem claim4_dedup_flush_close (lg : AuditLogger)
    (m : List (String × List AuditSinkM)) (hm : lg.sinks = some m)
    (s : AuditSinkM) (hs : s ∈ (m.map (·.2)).flatten) (fails : Nat → Bool) :
    (s.hasFlush = true → ((lg.flushEffects fails).map Prod.fst).count s = 1)
    ∧ (s.hasFlush = false → ((lg.flushEffects fails).map Prod.fst).count s = 0)
    ∧ (s.hasClose = true → ((lg.closeEffects fails).map Prod.fst).count s = 1)
    ∧ (s.hasClose = false →
        ((lg.closeEffects fails).map Prod.fst).count s = 0) := by
  have hall : lg.allSinks = (m.map (·.2)).flatten := by
    rw [AuditLogger.allSinks, hm]
  refine ⟨?_, ?_, ?_, ?_⟩ <;> intro hcap
  · rw [flushEffects_fst, AuditLogger.flushCalls, count_collectDistinct, hall]
    simp [hcap, hs]
  · rw [flushEffects_fst, AuditLogger.flushCalls, count_collectDistinct]
    simp [hcap]
  · rw [closeEffects_fst, AuditLogger.closeCalls, count_collectDistinct, hall]
    simp [hcap, hs]
  · rw [closeEffects_fst, AuditLogger.closeCalls, count_collectDistinct]
    simp [hcap]

/-- Witness for C4: with sinkW1 shared between the global and the
"production" lists, one flush and one close call each touch it exactly
once even when every sink's flush rejects, and the capability-less sink
is never invoked. -/
theorem claim4_witness :
    ((lgW4.flushEffects (fun _ => true)).map Prod.fst).count sinkW1 = 1
    ∧ ((lgW4.closeEffects (fun _ => true)).map Prod.fst).count sinkW1 = 1
    ∧ ((lgW4.flushEffects (fun _ => true)).map Prod.fst).count sinkW3 = 0 :=
  ⟨(claim4_dedup_flush_close lgW4
      [("*", [sinkW1, sinkW3]), ("production", [sinkW1, sinkW2])] rfl
      sinkW1 (by decide) (fun _ => true)).1 rfl,
   (claim4_dedup_flush_close lgW4
      [("*", [sinkW1, sinkW3]), ("production", [sinkW1, sinkW2])] rfl
      sinkW1 (by decide) (fun _ => true)).2.2.1 rfl,
   (claim4_dedup_flush_close lgW4
      [("*", [sinkW1, sinkW3]), ("production", [sinkW1, sinkW2])] rfl
      sinkW3 (by decide) (fun _ => true)).2.1 rfl⟩

/-- C6: flushing a non-empty HttpSink buffer detaches it as one batch:
every POST body is exactly that batch serialized as a JSON array in send
order, there are two attempts when the first fails and otherwise one
(never a third), the batch is dropped with a diagnostic exactly when both
attempts fail, entries arriving during the network call end up in the
fresh buffer, and two sends with batch size 2 produce one POST holding
both entries in send order. -/
theorem claim6_http_flush (buffer arrivals : List AuditLogEntry)
    (f1 f2 : Bool) (h : buffer ≠ []) :
    (∀ p ∈ (httpFlush buffer arrivals f1 f2).posts, p = buffer)
    ∧ (httpFlush buffer arrivals f1 f2).posts.length = (if f1 then 2 else 1)
    ∧ (httpFlush buffer arrivals f1 f2).dropped = (f1 && f2)
    ∧ (httpFlush buffer arrivals f1 f2).diag = (f1 && f2)
    ∧ (httpFlush buffer arrivals f1 f2).buffer = arrivals
    ∧ (∀ p ∈ (httpFlush buffer arrivals f1 f2).posts,
        httpPostBody p = stringify (.arr (buffer.map entryToJson)))
    ∧ (∀ e1 e2 : AuditLogEntry,
        (httpFlush (httpSend false (httpSend false [] 2 e1).1 2 e2).1 []
          false false).posts = [[e1, e2]]) := by
  have hne : buffer.isEmpty = false := by
    cases buffer with
    | nil => cases h rfl
    | cons a l => rfl
  cases f1 <;> cases f2 <;>
    simp [httpFlush, hne, httpPostBody] <;>
    exact fun e1 e2 => rfl

/-- Witness for C6 on a concrete batch with both attempts failing. -/
theorem claim6_witness :
    (∀ p ∈ (httpFlush [entryPlain] [entryW1] true true).posts,
        p = [entryPlain])
    ∧ (httpFlush [entryPlain] [entryW1] true true).posts.length
        = (if true then 2 else 1)
    ∧ (httpFlush [entryPlain] [entryW1] true true).dropped = (true && true)
    ∧ (httpFlush [entryPlain] [entryW1] true true).diag = (true && true)
    ∧ (httpFlush [entryPlain] [entryW1] true true).buffer = [entryW1]
    ∧ (∀ p ∈ (httpFlush [entryPlain] [entryW1] true true).posts,
        httpPostBody p = stringify (.arr ([entryPlain].map entryToJson)))
    ∧ (∀ e1 e2 : AuditLogEntry,
        (httpFlush (httpSend false (httpSend false [] 2 e1).1 2 e2).1 []
          false false).posts = [[e1, e2]]) :=
  claim6_http_flush [entryPlain] [entryW1] true true (List.cons_ne_nil _ _)

/-- C7: a put-log-events call failing with a token conflict that names
the server's expected token adopts that token and retries the same
events exactly once; a successful retry delivers the batch and stores the
returned next token, a failed retry writes the diagnostic and drops the
batch without throwing or further attempts. -/
theorem claim7_cw_token_retry (token : Option String) (events : List LogEvent)
    (net : Nat → PutResult) (e : Option String) (h : net 0 = .tokenErr e) :
    (putLogEvents token events net).attempts = [(token, events), (e, events)]
    ∧ (∀ nt, net 1 = .ok nt →
        (putLogEvents token events net).delivered = true
        ∧ (putLogEvents token events net).token = nt
        ∧ (putLogEvents token events net).diag = false)
    ∧ ((∀ nt, net 1 ≠ .ok nt) →
        (putLogEvents token events net).delivered = false
        ∧ (putLogEvents token events net).diag = true
        ∧ (putLogEvents token events net).threw = false
        ∧ (putLogEvents token events net).token = e) := by
  simp only [putLogEvents, h]
  cases hn : net 1 with
  | ok nt =>
    refine ⟨rfl, ?_, ?_⟩
    · intro nt' hh
      cases hh
      exact ⟨rfl, rfl, rfl⟩
    · intro hno
      exact absurd rfl (hno nt)
  | tokenErr ex =>
    refine ⟨rfl, ?_, ?_⟩
    · intro nt' hh
      cases hh
    · intro _
      exact ⟨rfl, rfl, rfl, rfl⟩
  | otherErr =>
    refine ⟨rfl, ?_, ?_⟩
    · intro nt' hh
      cases hh
    · intro _
      exact ⟨rfl, rfl, rfl, rfl⟩

/-- Witness for C7: concrete token conflict followed by a successful
retry delivers the batch with the corrected token chain. -/
theorem claim7_witness :
    (putLogEvents (some "T1") [{ timestamp := 0, message := "m" }] netW).attempts
      = [(some "T1", [{ timestamp := 0, message := "m" }]),
         (some "T2", [{ timestamp := 0, message := "m" }])]
    ∧ (putLogEvents (some "T1") [{ timestamp := 0, message := "m" }] netW).delivered
        = true
    ∧ (putLogEvents (some "T1") [{ timestamp := 0, message := "m" }] netW).token
        = some "T3" :=
  have base := claim7_cw_token_retry (some "T1")
    [{ timestamp := 0, message := "m" }] netW (some "T2") rfl
  ⟨base.1, (base.2.1 (some "T3") rfl).1, (base.2.1 (some "T3") rfl).2.1⟩

/-- C9: every formatted syslog message begins with the PRI computed as
facility times 8 plus the severity, severity being 4 exactly when
result.success is explicitly false and 6 otherwise; with the default
facility 16 a failure entry's message begins with the 132 PRI header and
any other entry's with the 134 PRI header. -/
theorem claim9_syslog_pri (facility : Nat)
    (hostname appName procId now : String) (entry : AuditLogEntry) :
    (∃ rest, formatSyslogMessage facility hostname appName procId now entry
        = "<" ++ toString (facility * 8 + syslogSeverity entry) ++ ">1 "
          ++ rest)
    ∧ (syslogSeverity entry
        = if entry.result.map (·.success) = some false then 4 else 6)
    ∧ (entry.result.map (·.success) = some false →
        ∃ rest, formatSyslogMessage 16 hostname appName procId now entry
          = "<132>1 " ++ rest)
    ∧ (entry.result.map (·.success) ≠ some false →
        ∃ rest, formatSyslogMessage 16 hostname appName procId now entry
          = "<134>1 " ++ rest) := by
  have hsev : syslogSeverity entry
      = if entry.result.map (·.success) = some false then 4 else 6 := by
    cases hE : entry.result with
    | none => simp [syslogSeverity, hE]
    | some r =>
      cases hs : r.success <;> simp [syslogSeverity, hE, hs]
  obtain ⟨rest, hmsg⟩ : ∃ rest,
      formatSyslogMessage 16 hostname appName procId now entry
        = "<" ++ toString (16 * 8 + syslogSeverity entry) ++ ">1 " ++ rest :=
    ⟨_, rfl⟩
  refine ⟨⟨_, rfl⟩, hsev, ?_, ?_⟩
  · intro hfail
    have h4 : syslogSeverity entry = 4 := by rw [hsev, if_pos hfail]
    rw [h4] at hmsg
    exact ⟨rest, hmsg⟩
  · intro hok
    have h6 : syslogSeverity entry = 6 := by rw [hsev, if_neg hok]
    rw [h6] at hmsg
    exact ⟨rest, hmsg⟩

/-- Witness for C9 at a concrete success entry and failure entry with the
default facility. -/
theorem claim9_witness :
    (∃ rest, formatSyslogMessage 16 "host" "app" "1" "n" entryFail
        = "<132>1 " ++ rest)
    ∧ (∃ rest, formatSyslogMessage 16 "host" "app" "1" "n" entrySucc
        = "<134>1 " ++ rest) :=
  ⟨(claim9_syslog_pri 16 "host" "app" "1" "n" entryFail).2.2.1 rfl,
   (claim9_syslog_pri 16 "host" "app" "1" "n" entrySucc).2.2.2 (by decide)⟩

/-- Constructor fact: the logger is enabled exactly when AUDIT_LOGGING is
not the string "false". -/
theorem construct_enabled (env : AuditEnv) (cwd : String) :
    (AuditLogger.construct env cwd).enabled
      = (env.AUDIT_LOGGING != some "false") := by
  simp only [AuditLogger.construct]
  cases hb : env.AUDIT_LOGGING != some "false" <;>
    cases ho : env.AUDIT_LOG_PATH <;>
      simp only [ho] <;>
      first
        | rfl
        | (split <;> simp_all)

/-- Configuring sinks does not change the enabled flag. -/
theorem configureSinks_enabled (lg : AuditLogger) (g : List AuditSinkM)
    (p : List (String × List AuditSinkM)) :
    (lg.configureSinks g p).enabled = lg.enabled := rfl

/-- A disabled logger produces no effects on any entry. -/
theorem log_disabled (lg : AuditLogger) (h : lg.enabled = false)
    (entry : AuditLogEntry) : lg.log entry = [] := by
  rw [AuditLogger.log, if_pos h]

/-- C10: a logger constructed while AUDIT_LOGGING equals "false" is
disabled, and every subsequent log call — with or without configured
sinks, hence also every logToolInvocation — produces no sink send and no
legacy file write; for every other value of the variable, including
unset, the logger is enabled. -/
theorem claim10_audit_logging_gate (env : AuditEnv) (cwd : String) :
    ((AuditLogger.construct env cwd).enabled
        = (env.AUDIT_LOGGING != some "false"))
    ∧ (env.AUDIT_LOGGING = some "false" →
        ∀ (g : List AuditSinkM) (p : List (String × List AuditSinkM))
          (entry : AuditLogEntry),
          ((AuditLogger.construct env cwd).configureSinks g p).log entry = []
          ∧ (AuditLogger.construct env cwd).log entry = []) := by
  have hen := construct_enabled env cwd
  refine ⟨hen, ?_⟩
  intro hfalse g p entry
  have hdis : (AuditLogger.construct env cwd).enabled = false := by
    rw [hen, hfalse]
    rfl
  constructor
  · exact log_disabled _ (by rw [configureSinks_enabled]; exact hdis) entry
  · exact log_disabled _ hdis entry

/-- Witness for C10 with AUDIT_LOGGING set to "false" and to unset. -/
theorem claim10_witness :
    ((AuditLogger.construct { AUDIT_LOGGING := some "false" } "/app").enabled
        = (some "false" != some "false"))
    ∧ (some "false" = some "false" →
        ∀ (g : List AuditSinkM) (p : List (String × List AuditSinkM))
          (entry : AuditLogEntry),
          ((AuditLogger.construct { AUDIT_LOGGING := some "false" } "/app").configureSinks
              g p).log entry = []
          ∧ (AuditLogger.construct { AUDIT_LOGGING := some "false" } "/app").log
              entry = [])
    ∧ (AuditLogger.construct {} "/app").enabled = true :=
  ⟨(claim10_audit_logging_gate { AUDIT_LOGGING := some "false" } "/app").1,
   fun _ => (claim10_audit_logging_gate { AUDIT_LOGGING := some "false" } "/app").2 rfl,
   (claim10_audit_logging_gate {} "/app").1⟩

/-- The joined string-to-sign equals the canonical five-line string of
the shared-key scheme. -/
theorem azureStringToSign_eq (n : Nat) (d : String) :
    azureStringToSign n d
      = "POST\n" ++ toString n ++ "\napplication/json\nx-ms-date:" ++ d
        ++ "\n/api/logs" := by
  apply String.ext
  simp [azureStringToSign, String.intercalate, String.intercalate.go,
    String.data_append]

/-- C8: flushing a non-empty Azure batch produces a POST whose body is
the JSON array of the batch, whose signature is the base64 HMAC-SHA256,
keyed by the base64-decoded shared key, of exactly the canonical string
built from the body's UTF-8 byte length and the RFC1123 date, and whose
headers carry that signature, content type, log type and the same date.
-/
theorem claim8_azure_signature (hmacSha256 : List Nat → String → List Nat)
    (wsId sharedKey logType now : String) (batch : List AuditLogEntry)
    (h : batch ≠ []) :
    ∃ req, azureFlushRequest hmacSha256 wsId sharedKey logType batch now
        = some req
      ∧ req.method = "POST"
      ∧ req.body = stringify (.arr (batch.map entryToJson))
      ∧ req.url = "https://" ++ wsId
          ++ ".ods.opinsights.azure.com/api/logs?api-version=2016-04-01"
      ∧ req.headers = [
          ("Content-Type", "application/json"),
          ("Log-Type", logType),
          ("x-ms-date", now),
          ("Authorization", "SharedKey " ++ wsId ++ ":"
            ++ b64encode (hmacSha256 (b64decode sharedKey)
              ("POST\n" ++ toString req.body.utf8ByteSize
                ++ "\napplication/json\nx-ms-date:" ++ now
                ++ "\n/api/logs")))] := by
  have hne : ¬(batch.isEmpty = true) := by
    cases batch with
    | nil => cases h rfl
    | cons a l => simp
  rw [azureFlushRequest, if_neg hne]
  refine ⟨_, rfl, rfl, rfl, rfl, ?_⟩
  rw [buildSignature, azureStringToSign_eq]

/-- Witness for C8 on a one-entry batch with a stand-in HMAC. -/
theorem claim8_witness :
    ∃ req, azureFlushRequest hmacW "ws" "AAAA" "L" [entryPlain] "d"
        = some req
      ∧ req.method = "POST"
      ∧ req.body = stringify (.arr ([entryPlain].map entryToJson))
      ∧ req.url = "https://" ++ "ws"
          ++ ".ods.opinsights.azure.com/api/logs?api-version=2016-04-01"
      ∧ req.headers = [
          ("Content-Type", "application/json"),
          ("Log-Type", "L"),
          ("x-ms-date", "d"),
          ("Authorization", "SharedKey " ++ "ws" ++ ":"
            ++ b64encode (hmacW (b64decode "AAAA")
              ("POST\n" ++ toString req.body.utf8ByteSize
                ++ "\napplication/json\nx-ms-date:" ++ "d"
                ++ "\n/api/logs")))] :=
  claim8_azure_signature hmacW "ws" "AAAA" "L" "d" [entryPlain]
    (List.cons_ne_nil _ _)

/-- Unpacking fact for string construction from a character list. -/
theorem mk_data (l : List Char) : (String.mk l).data = l := rfl

/-- Escaping a run of the letter a changes nothing. -/
theorem escList_replicate_a (n : Nat) :
    escList (List.replicate n 'a') = List.replicate n 'a' := by
  induction n with
  | zero => rfl
  | succ k ih =>
    simp [List.replicate_succ, escList, escCharL, ih]

/-- Quoted length of a run of n letters a: the n characters plus the two
quotes. -/
theorem qstr_replicate_length (n : Nat) :
    (qstr (String.mk (List.replicate n 'a'))).length = n + 2 := by
  simp only [qstr, String.length_append, String.length_mk, mk_data,
    escList_replicate_a, List.length_replicate]
  show 1 + n + 1 = n + 2
  omega

/-- Serialized length of a JSON string literal made of n letters a. -/
theorem stringify_mkStr_length (n : Nat) :
    (stringify (.str (String.mk (List.replicate n 'a')))).length = n + 2 :=
  qstr_replicate_length n

/-- Serialized length of the 2-element long-string array. -/
theorem longArrW_length : (stringify longArrW).length = 12007 := by
  simp only [longArrW, longStrW, stringify, stringifyList,
    String.length_append, qstr_replicate_length]
  decide

/-- Counterexample to C5 as stated: (a) the object replacing an
11-element array carries the keys _truncated and _totalCount, not the
claimed truncated and totalCount; (b) a 2-element array whose JSON
serialization has 12007 characters — more than 10000 — is not replaced
by any marker object but returned unchanged, because the size bound is
only applied to non-array values. -/
theorem claim5_counterexample :
    (∃ fields, truncateResultData (some bigArrW) = some (.obj fields)
      ∧ fields.lookup "truncated" = none
      ∧ fields.lookup "totalCount" = none
      ∧ fields.lookup "originalSize" = none
      ∧ fields.lookup "_truncated" = some (.bool true)
      ∧ fields.lookup "_totalCount" = some (.num 11))
    ∧ ((stringify longArrW).length > 10000
      ∧ truncateResultData (some longArrW) = some longArrW
      ∧ ∀ fields, truncateResultData (some longArrW) ≠ some (.obj fields)) := by
  refine ⟨⟨_, rfl, rfl, rfl, rfl, rfl, rfl⟩, ?_, rfl, ?_⟩
  · rw [longArrW_length]
    omega
  · intro fields hcontra
    rw [show truncateResultData (some longArrW) = some longArrW from rfl]
      at hcontra
    exact Json.noConfusion (Option.some.inj hcontra)

/-- C5 as amended: at verbose level the result data is shaped by
truncateResultData, under which an array of more than 10 elements is
replaced by an object with fields _truncated:true, _totalCount (the
original length) and items (the first 10 elements in order), and any
non-array value whose JSON serialization exceeds 10000 characters is
replaced by an object with fields _truncated:true, _originalSize (the
serialized length) and preview (the first 1000 characters of the
serialization followed by "..."); arrays of at most 10 elements pass
through unchanged regardless of serialized size. -/
theorem claim5_truncation_amended (data : Json) :
    (∀ xs, data = .arr xs → xs.length > 10 →
      truncateResultData (some data)
        = some (.obj [("_truncated", .bool true),
                      ("_totalCount", .num (Int.ofNat xs.length)),
                      ("items", .arr (xs.take 10))]))
    ∧ ((∀ xs, data ≠ .arr xs) → (stringify data).length > 10000 →
      truncateResultData (some data)
        = some (.obj [("_truncated", .bool true),
                      ("_originalSize",
                        .num (Int.ofNat (stringify data).length)),
                      ("preview",
                        .str ((stringify data).take 1000 ++ "..."))]))
    ∧ (∀ xs, data = .arr xs → ¬(xs.length > 10) →
      truncateResultData (some data) = some data)
    ∧ (∀ (toolName : String) (args : Option (List (String × Json)))
        (result : Option ToolResult) (durationMs : Int)
        (options : LogOptions) (now : String) (e : AuditLogEntry),
        options.auditLevel = some .verbose →
        buildInvocationEntry toolName args result durationMs options now
          = some e →
        ∃ r, e.result = some r
          ∧ r.data = truncateResultData (result.bind (·.data))) := by
  refine ⟨?_, ?_, ?_, ?_⟩
  · intro xs hx hlen
    subst hx
    rw [truncateResultData]
    rw [if_neg (by simp [jsFalsy])]
    simp [hlen]
  · intro hnotarr hlen
    cases data with
    | null => exact absurd hlen (by decide)
    | bool b => cases b <;> exact absurd hlen (by decide)
    | num n =>
      have hn0 : ¬(n = 0) := by
        intro h0
        subst h0
        exact absurd hlen (by decide)
      rw [truncateResultData]
      rw [if_neg (by simp [jsFalsy, hn0])]
      simp [hlen]
      exact fun xs h => Json.noConfusion h
    | str s =>
      have hs0 : ¬(s = "") := by
        intro h0
        subst h0
        exact absurd hlen (by decide)
      rw [truncateResultData]
      rw [if_neg (by simp [jsFalsy, hs0])]
      simp [hlen]
      exact fun xs h => Json.noConfusion h
    | arr xs => exact absurd rfl (hnotarr xs)
    | obj kvs =>
      rw [truncateResultData]
      rw [if_neg (by simp [jsFalsy])]
      simp [hlen]
      exact fun xs h => Json.noConfusion h
  · intro xs hx hlen
    subst hx
    rw [truncateResultData]
    rw [if_neg (by simp [jsFalsy])]
    simp [hlen]
  · intro toolName args result durationMs options now e hlvl hbuild
    simp only [buildInvocationEntry, hlvl, Option.getD_some] at hbuild
    cases hbuild
    exact ⟨_, rfl, rfl⟩

/-- Witness for the amended C5 at an 11-element array, a long non-array
string and a small array with an oversized serialization. -/
theorem claim5_witness :
    truncateResultData (some bigArrW)
      = some (.obj [("_truncated", .bool true),
                    ("_totalCount", .num 11),
                    ("items", .arr (List.replicate 10 (.num 1)))])
    ∧ (stringify strBigW).length = 10502
    ∧ truncateResultData (some strBigW)
      = some (.obj [("_truncated", .bool true),
                    ("_originalSize",
                      .num (Int.ofNat (stringify strBigW).length)),
                    ("preview",
                      .str ((stringify strBigW).take 1000 ++ "..."))])
    ∧ truncateResultData (some longArrW) = some longArrW :=
  ⟨(claim5_truncation_amended bigArrW).1 (List.replicate 11 (.num 1)) rfl
      (by decide),
   stringify_mkStr_length 10500,
   (claim5_truncation_amended strBigW).2.1
      (fun xs hc => Json.noConfusion
        (show Json.str (String.mk (List.replicate 10500 'a'))
          = Json.arr xs from hc))
      (by
        rw [show stringify strBigW
          = stringify (.str (String.mk (List.replicate 10500 'a'))) from rfl,
          stringify_mkStr_length]
        omega),
   (claim5_truncation_amended longArrW).2.2.1 [.str longStrW, .str longStrW]
      rfl (by decide)⟩

end Audit
